import Mathlib

/-!
# Verification of the routeweaver per-peer message pipeline

Shallow embedding of the daemon's channel and transport components:

* `src/daemon/src/channel/disassembler.rs` — `MessageDisassembler`
* `src/daemon/src/channel/assembler.rs` — `MessageAssembler`
* `src/daemon/src/transport/handshake_continue.rs` — `handshake_continue`
* `src/daemon/src/transport/reader.rs` — `packet_reader` classification
* `src/daemon/src/channel/handle_message.rs` — `handle_message`
* `src/daemon/src/transport/router.rs` — `packet_router`

Modelling conventions:

* Bytes are `Nat`s, byte buffers are `List Nat`; machine integers are `Nat`
  with explicit `% 2 ^ 16` where the Rust code relies on `u16` wrapping.
* Hash maps keyed by `u16` message ids or by 32-byte public keys are total
  functions into `Option`; an update is a pointwise if-then-else.
* External crates are not re-implemented: bincode encoding/decoding, the LZ4
  compressor/decompressor and the Noise (snow) primitives enter as function
  parameters or as abstract outcome fields, since the repository treats their
  results opaquely.  The floating-point Shannon-entropy heuristic of
  `should_message_be_compressed` is likewise external to the modelled logic:
  `MessageDisassembler.message` receives the already-encoded (and possibly
  compressed) payload together with the compression flag.
* A Rust panic (`unwrap` failure, arithmetic overflow in an index, an
  out-of-bounds array write, `todo!()`) is modelled by returning `none`.
-/

/-- `MAX_PACKET_PAYLOAD_SIZE = 63 * 1024` from `transport/packet.rs`. -/
def MAX_PACKET_PAYLOAD_SIZE : Nat := 63 * 1024

/-- `MAX_BODIES_PER_MESSAGE = 512` from `channel/assembler.rs`. -/
def MAX_BODIES_PER_MESSAGE : Nat := 512

/-- `MARGIN_OF_OUT_OF_ORDER_ALLOWED = 16` from `channel/assembler.rs`. -/
def MARGIN_OF_OUT_OF_ORDER_ALLOWED : Nat := 16

/-- Modulus of the `u16` message-id space. -/
def U16_MOD : Nat := 65536

/-- `u16` wrapping subtraction `a.wrapping_sub b` for `a b < 2 ^ 16`. -/
def wsub (a b : Nat) : Nat := (a + U16_MOD - b) % U16_MOD

/-- `u16` wrapping addition by one, `a.wrapping_add 1`. -/
def wadd1 (a : Nat) : Nat := (a + 1) % U16_MOD

/-- `Vec::resize(n, 0)`: truncate to `n` elements or pad with zeroes. -/
def listResize (l : List Nat) (n : Nat) : List Nat :=
  l.take n ++ List.replicate (n - l.length) 0

/-- An inclusive-range set over `u16` (`rangemap::RangeInclusiveSet`),
modelled as the list of its ranges. -/
def RangeSet : Type := List (Nat × Nat)

/-- `RangeInclusiveSet::contains`. -/
def rangeSetContains (s : RangeSet) (i : Nat) : Bool :=
  s.any fun r => decide (r.1 ≤ i) && decide (i ≤ r.2)

/-- The payload variants of a `MessageSegment` (`transport/packet.rs`,
`MessagePayload`).  `Head.body_count` carries the value of the Rust
`NonZero<u16>`. -/
inductive MessagePayload where
  | Head (body_count : Nat) (compression : Bool)
  | Body (index : Nat) (data : List Nat)
  | MessageProgress (confirmed_head : Bool) (confirmed_bodies : RangeSet)

/-- `PayloadTracker` from `channel/disassembler.rs`. -/
structure PayloadTracker where
  payload : List Nat
  compression : Bool
  head_confirmed : Bool
  body_count : Nat
  bodies_confirmed : RangeSet

/-- `MessageDisassembler` from `channel/disassembler.rs`: the per-destination
outbound tracker map plus the two id cursors. -/
structure MessageDisassembler where
  packets : Nat → Option PayloadTracker
  next_message_id : Nat
  highest_message_id : Nat

/-- `MessageDisassembler::default()`. -/
def MessageDisassembler.init : MessageDisassembler :=
  { packets := fun _ => none, next_message_id := 0, highest_message_id := 0 }

/-- `MessageDisassembler::message`.  The bincode encoding and the
entropy-driven LZ4 compression are external crates, so the function receives
the processed payload bytes and the compression flag; everything from the
`body_count` computation on is translated from the source.  The
`try_into().unwrap()` to `u16` and the `NonZero::new(..).unwrap()` panic when
the body count is zero or does not fit a `u16`; those panics are `none`. -/
def MessageDisassembler.message (s : MessageDisassembler) (encoded_payload : List Nat)
    (compression : Bool) : Option (MessageDisassembler × Nat) :=
  let body_count := (encoded_payload.length + MAX_PACKET_PAYLOAD_SIZE - 1) /
    MAX_PACKET_PAYLOAD_SIZE
  if body_count = 0 ∨ U16_MOD ≤ body_count then none
  else
    let message_id := wadd1 s.highest_message_id
    some
      ({ s with
          packets := fun k =>
            if k = message_id then
              some
                { payload := encoded_payload
                  compression := compression
                  head_confirmed := false
                  body_count := body_count
                  bodies_confirmed := [] }
            else s.packets k },
        message_id)

/-- The segment batch `MessageDisassembler::payloads` builds for one
tracker: the `Head` when it is unconfirmed, then a `Body` with the
`MAX_PACKET_PAYLOAD_SIZE`-byte slice (`skip`/`take`) for every index not in
the confirmed set. -/
def trackerEmission (tracker : PayloadTracker) : List MessagePayload :=
  (if tracker.head_confirmed then []
   else [.Head tracker.body_count tracker.compression]) ++
  (List.range tracker.body_count).filterMap fun index =>
    if rangeSetContains tracker.bodies_confirmed index then none
    else
      some (.Body index
        ((tracker.payload.drop (index * MAX_PACKET_PAYLOAD_SIZE)).take
          MAX_PACKET_PAYLOAD_SIZE))

/-- `MessageDisassembler::payloads`.  Inspects only the tracker at
`next_message_id`; emits the unconfirmed `Head` and all unconfirmed `Body`
slices, or — when everything is confirmed — removes the tracker, advances
`next_message_id` by one wrapping step and returns `none`. -/
def MessageDisassembler.payloads (s : MessageDisassembler) :
    Option (Nat × List MessagePayload) × MessageDisassembler :=
  match s.packets s.next_message_id with
  | none => (none, s)
  | some tracker =>
      let ps := trackerEmission tracker
      if ps.isEmpty then
        (none,
         { s with
            packets := fun k => if k = s.next_message_id then none else s.packets k
            next_message_id := wadd1 s.next_message_id })
      else (some (s.next_message_id, ps), s)

/-- `PendingMessage` from `channel/assembler.rs`.  The `[bool; 512]`
`committed_bodies` array is a function; writes past index 511 panic in Rust
and are modelled as `none` in `MessageAssembler.body`. -/
structure PendingMessage where
  head_arrived : Bool
  compression : Bool
  max_index_seen : Nat
  total_bodies : Option Nat
  final_partial_body_length : Option Nat
  committed_bodies : Nat → Bool
  bodies : List Nat

/-- `PendingMessage::default()`. -/
def PendingMessage.init : PendingMessage :=
  { head_arrived := false
    compression := false
    max_index_seen := 0
    total_bodies := none
    final_partial_body_length := none
    committed_bodies := fun _ => false
    bodies := [] }

/-- The contribution of `final_partial_body_length` to the expected bodies
size: `fp.map(|l| MAX_PACKET_PAYLOAD_SIZE - l).unwrap_or(0)`. -/
def partialCorrection (fp : Option Nat) : Nat :=
  match fp with
  | some l => MAX_PACKET_PAYLOAD_SIZE - l
  | none => 0

/-- `MessageAssembler` from `channel/assembler.rs`.  The
`AllocRingBuffer<Option<PendingMessage>>` is created full of `None`s
(`fill_default`) and every `dequeue` is immediately followed by a
`push(None)`, so its length stays 16; it is modelled as a function from the
16 slots, slot 0 being the read position.  The ringbuffer crate's
`get`/`get_mut`/`index` reduce the index modulo the (always 16) length, so
an access at offset `i` lands in slot `i % 16`. -/
structure MessageAssembler where
  current_message_id : Nat
  pending_messages : Fin 16 → Option PendingMessage

/-- `MessageAssembler::default()`. -/
def MessageAssembler.init : MessageAssembler :=
  { current_message_id := 0, pending_messages := fun _ => none }

/-- The ring slot reached by the ringbuffer crate for a logical offset:
the offset taken modulo the length 16. -/
def slotIdx (n : Nat) : Fin 16 := ⟨n % 16, Nat.mod_lt _ (by omega)⟩

/-- `MessageAssembler::head`.  `body_count` is the value of the Rust
`NonZero<u16>` argument. -/
def MessageAssembler.head (s : MessageAssembler) (message_id body_count : Nat)
    (compression : Bool) : MessageAssembler :=
  let idx := slotIdx (wsub message_id s.current_message_id)
  let entry := (s.pending_messages idx).getD PendingMessage.init
  let calculated := body_count * MAX_PACKET_PAYLOAD_SIZE -
    partialCorrection entry.final_partial_body_length
  if calculated < entry.bodies.length then
    { s with pending_messages := fun j => if j = idx then none else s.pending_messages j }
  else
    { s with
        pending_messages := fun j =>
          if j = idx then
            some
              { entry with
                  bodies := listResize entry.bodies calculated
                  total_bodies := some body_count
                  compression := compression
                  head_arrived := true }
          else s.pending_messages j }

/-- `final_partial_body_length` was already set to a different value than
the arriving partial body's length. -/
def fpMismatch (fp : Option Nat) (len : Nat) : Bool :=
  match fp with
  | some f => f ≠ len
  | none => false

/-- `total_bodies` is known and at most `index`: the body lies past the
declared end. -/
def totalAtMost (t : Option Nat) (index : Nat) : Bool :=
  match t with
  | some t => t ≤ index
  | none => false

/-- The final-partial and last-index bookkeeping of `MessageAssembler::body`:
a partial body records its length and (first-such-wins) forces
`total_bodies = index + 1`; `index == 511` also forces the total. -/
def bodyTotals (entry0 : PendingMessage) (index : Nat) (data : List Nat) : PendingMessage :=
  let e1 := if data.length < MAX_PACKET_PAYLOAD_SIZE then
      { entry0 with
          final_partial_body_length := some data.length
          total_bodies := some (entry0.total_bodies.getD (index + 1)) }
    else entry0
  if index = MAX_BODIES_PER_MESSAGE - 1 then
    { e1 with total_bodies := some (e1.total_bodies.getD (index + 1)) }
  else e1

/-- The expected `bodies` length: the declared total (or, failing that, the
highest index seen plus one) full chunks, less the part of the final chunk
that a recorded partial body does not fill. -/
def expectedSize (e : PendingMessage) : Nat :=
  (match e.total_bodies with
   | some t => t
   | none => e.max_index_seen + 1) * MAX_PACKET_PAYLOAD_SIZE -
    partialCorrection e.final_partial_body_length

/-- Writing `data` over the chunk at `index` and setting its committed
flag, after resizing `bodies` to the expected size. -/
def commitBody (e3 : PendingMessage) (index : Nat) (data : List Nat)
    (calculated : Nat) : PendingMessage :=
  let newBodies := listResize e3.bodies calculated
  { e3 with
      bodies := (newBodies.take (index * MAX_PACKET_PAYLOAD_SIZE)) ++ data ++
        (newBodies.drop (index * MAX_PACKET_PAYLOAD_SIZE + data.length))
      committed_bodies := fun i => if i = index then true else e3.committed_bodies i }

/-- `MessageAssembler::body`.  Returns `none` exactly where the Rust code
panics: the `u16` overflow of `index + 1` inside `NonZero::new(index + 1)`
on a partial body with `index = 65535`, the `chunks_mut(..).nth(index)
.unwrap()` when no such chunk exists, and the `committed_bodies[index]`
array write for `index ≥ 512`. -/
def MessageAssembler.body (s : MessageAssembler) (message_id index : Nat)
    (data : List Nat) : Option MessageAssembler :=
  let idx := slotIdx (wsub message_id s.current_message_id)
  let invalidate : MessageAssembler :=
    { s with pending_messages := fun j => if j = idx then none else s.pending_messages j }
  let entry0 := (s.pending_messages idx).getD PendingMessage.init
  if data.length = 0 then some invalidate
  else if MAX_PACKET_PAYLOAD_SIZE < data.length then some invalidate
  else if data.length < MAX_PACKET_PAYLOAD_SIZE ∧
      fpMismatch entry0.final_partial_body_length data.length then some invalidate
  else if data.length < MAX_PACKET_PAYLOAD_SIZE ∧ index + 1 = U16_MOD then none
  else
    let e2 := bodyTotals entry0 index data
    if totalAtMost e2.total_bodies index then some invalidate
    else
      let e3 := { e2 with max_index_seen := max index e2.max_index_seen }
      let calculated := expectedSize e3
      if calculated ≤ index * MAX_PACKET_PAYLOAD_SIZE then none
      else if min MAX_PACKET_PAYLOAD_SIZE (calculated - index * MAX_PACKET_PAYLOAD_SIZE) ≠
          data.length then some invalidate
      else if MAX_BODIES_PER_MESSAGE ≤ index then none
      else
        some
          { s with
              pending_messages := fun j =>
                if j = idx then some (commitBody e3 index data calculated)
                else s.pending_messages j }

/-- The finished test on one entry: `head_arrived` and every committed flag
up to `total_bodies` (capped by the 512-element array, as `iter().take`
does).  The Rust `total_bodies.unwrap()` can only be reached with
`head_arrived = true`, which `MessageAssembler.head` always pairs with a
`some` count; the unreachable `none` case is `false` here. -/
def PendingMessage.finishedEntry (e : PendingMessage) : Bool :=
  e.head_arrived &&
    match e.total_bodies with
    | some t => (List.range (min t MAX_BODIES_PER_MESSAGE)).all fun i => e.committed_bodies i
    | none => false

/-- `MessageAssembler::is_finished`. -/
def MessageAssembler.is_finished (s : MessageAssembler) (message_id : Nat) : Bool :=
  match s.pending_messages (slotIdx (wsub message_id s.current_message_id)) with
  | some e => e.finishedEntry
  | none => false

/-- The ring after `dequeue()` followed by `push(None)`: every slot shifts
down by one and the last slot becomes empty. -/
def ringShift (ring : Fin 16 → Option PendingMessage) : Fin 16 → Option PendingMessage :=
  fun j => if h : j.val + 1 < 16 then ring ⟨j.val + 1, h⟩ else none

/-- `MessageAssembler::next`, parameterized by the external
`lz4_flex::decompress_size_prepended` (`dec`; `none` is a decompression
error).  Mirrors the source order: the dequeue and push happen first, the
`ok()?` on the decompression returns `none` before the cursor advance. -/
def MessageAssembler.next (dec : List Nat → Option (List Nat)) (s : MessageAssembler) :
    Option (List Nat × Nat) × MessageAssembler :=
  if s.is_finished s.current_message_id then
    match s.pending_messages (slotIdx 0) with
    | none => (none, s)
    | some entry =>
        let ring := ringShift s.pending_messages
        match (if entry.compression then dec entry.bodies else some entry.bodies) with
        | none => (none, { current_message_id := s.current_message_id, pending_messages := ring })
        | some bodies =>
            (some (bodies, s.current_message_id),
             { current_message_id := wadd1 s.current_message_id, pending_messages := ring })
  else (none, s)

/-- `MessageAssembler::next_message`, parameterized additionally by the
external bincode decoding of a `Message` (`decMsg`). -/
def MessageAssembler.next_message {α : Type} (dec : List Nat → Option (List Nat))
    (decMsg : List Nat → Option α) (s : MessageAssembler) :
    Option (Nat × α) × MessageAssembler :=
  match s.next dec with
  | (none, s2) => (none, s2)
  | (some (bodies, id), s2) =>
      match decMsg bodies with
      | none => (none, s2)
      | some m => (some (id, m), s2)

/-- The observable part of a snow `HandshakeState` as used by the daemon
(spec §4.2): the turn and completion flags, the remote static key (a public
key, modelled as a `Nat`), and the outcome of the next `write_message`
(`some bytes` for `Ok`, `none` for `Err`) — the Noise internals live in the
external snow crate. -/
structure HandshakeState where
  is_handshake_finished : Bool
  is_my_turn : Bool
  remote_static : Nat
  write_result : Option (List Nat)

/-- The observable part of a snow `TransportState`: the remote static key
returned by `get_remote_static`. -/
structure TransportState where
  remote_static : Nat

/-- `TryInto<TransportState>` on a finished handshake followed by
`get_remote_static`: the transport keeps the handshake's remote static. -/
def HandshakeState.into_transport (h : HandshakeState) : TransportState :=
  { remote_static := h.remote_static }

/-- Modelled from the spec: `create_handshake_responder` (`noise.rs`, snow
external).  A fresh Noise XX responder first reads the initiator's message,
so it is not its turn and the handshake is not finished (spec §4.2). -/
def create_handshake_responder : HandshakeState :=
  { is_handshake_finished := false
    is_my_turn := false
    remote_static := 0
    write_result := none }

/-- A wire packet (`transport/packet.rs`). -/
inductive PacketData where
  | Handshake (data : List Nat)
  | MessageSegment (data : List Nat)

/-- `Packet` from `transport/packet.rs`; public keys are `Nat`s. -/
structure Packet where
  source : Nat
  destination : Option Nat
  data : PacketData

/-- One pass of the `handshake_continue` loop body
(`transport/handshake_continue.rs`, lines 20-79) over the entry for
`source`: a finished handshake is removed and — only when the remote static
key equals the key it was filed under — promoted into the transport
tracker; otherwise, when it is our turn, `write_message` either emits a
handshake packet or (on error) removes the state.  Returns the new
handshake tracker, the new transport tracker and the packet sent, if any. -/
def handshake_continue_step (selfKey : Nat) (ht : Nat → Option HandshakeState)
    (tt : Nat → Option TransportState) (source : Nat) :
    (Nat → Option HandshakeState) × (Nat → Option TransportState) × Option Packet :=
  match ht source with
  | none => (ht, tt, none)
  | some hs =>
      if hs.is_handshake_finished then
        let ht2 := fun k => if k = source then none else ht k
        let ts := hs.into_transport
        if source ≠ ts.remote_static then (ht2, tt, none)
        else (ht2, fun k => if k = source then some ts else tt k, none)
      else if hs.is_my_turn then
        match hs.write_result with
        | some msg =>
            (ht, tt, some { source := selfKey, destination := some source,
                            data := PacketData.Handshake msg })
        | none => ((fun k => if k = source then none else ht k), tt, none)
      else (ht, tt, none)

/-- The handshake branch of `packet_reader` (`transport/reader.rs`):
`handshake_tracker.entry(source).or_insert_with(create_handshake_responder)`
followed by `handle_handshake`.  `readResult` is the external snow
`read_message` on the entry's state: `some (advanced state, payload length)`
for `Ok`, `none` for `Err`. -/
def reader_handshake_step (ht : Nat → Option HandshakeState) (source : Nat)
    (readResult : HandshakeState → Option (HandshakeState × Nat)) :
    Nat → Option HandshakeState :=
  let entry := (ht source).getD create_handshake_responder
  if entry.is_my_turn || entry.is_handshake_finished then
    fun k => if k = source then some entry else ht k
  else
    match readResult entry with
    | some (entry2, n) =>
        if n ≠ 0 then fun k => if k = source then none else ht k
        else fun k => if k = source then some entry2 else ht k
    | none => fun k => if k = source then none else ht k

/-- The tail of `anonymous_handshake` (`transport/setup_connection.rs`,
lines 167-199): when the response packet is addressed to us and carries
handshake data that `read_message` accepts, the partially-advanced
initiator state is filed under the revealed source key. -/
def anonymous_handshake_store (ht : Nat → Option HandshakeState) (selfKey : Nat)
    (hs : HandshakeState) (response : Packet)
    (readOk : HandshakeState → List Nat → Option HandshakeState) :
    Nat → Option HandshakeState :=
  if response.destination ≠ some selfKey then ht
  else
    match response.data with
    | PacketData.Handshake d =>
        match readOk hs d with
        | some hs2 => fun k => if k = response.source then some hs2 else ht k
        | none => ht
    | PacketData.MessageSegment _ => ht

/-- The action `packet_reader` (`transport/reader.rs`, lines 22-132) takes
for one decoded packet.  `openAndFeedSegment` stands for the ciphertext
branch with a transport state present: open the segment with that state and
send it to the channel reader; `requestInitiateChannel` for the branch
without one. -/
inductive ReaderAction where
  | discardFromSelf
  | discardPingback
  | continueHandshake (source : Nat) (data : List Nat)
  | openAndFeedSegment (source : Nat) (ciphertext : List Nat)
  | requestInitiateChannel (source : Nat)
  | routeTransit (packet : Packet)

/-- The packet classification of `packet_reader`: translated from the chain
of conditionals in `transport/reader.rs`.  The `destination.is_none()`
branch inside the `MessageSegment` arm only logs a warning and falls
through, so it does not appear here. -/
def packet_reader_classify (selfKey : Nat) (tt : Nat → Option TransportState)
    (p : Packet) : ReaderAction :=
  if p.source = selfKey then .discardFromSelf
  else if p.destination = some p.source then .discardPingback
  else if p.destination = some selfKey ∨ p.destination = none then
    match p.data with
    | .Handshake d => .continueHandshake p.source d
    | .MessageSegment d =>
        match tt p.source with
        | some _ => .openAndFeedSegment p.source d
        | none => .requestInitiateChannel p.source
  else .routeTransit p

/-- The application-level `Message` (`proto.rs`); application ids,
connection ids and peers are `Nat`s, data buffers `List Nat`. -/
inductive Message where
  | RequestPeerSuggestion
  | PeerSuggestion (peers : List Nat)
  | RequestConnection (application : Nat)
  | ConnectionAccepted (application : Nat) (connection_id : Nat)
  | ConnectionDenied (application : Nat)
  | ConnectionHeartbeat (connection_id : Nat)
  | ConnectionClose (connection_id : Nat)
  | ConnectionData (connection_id : Nat) (data : List Nat)

/-- The side effect dispatched by `handle_message`
(`channel/handle_message.rs`) for one decoded message. -/
inductive HandlerAction where
  | replyPeerSuggestion
  | feedSuggestedPeers (peers : List Nat)
  | closeConnection (connection_id : Nat)
  | forwardData (connection_id : Nat) (data : List Nat)

/-- `handle_message` (`channel/handle_message.rs`, lines 8-95) reduced to
the branch it dispatches; the four reserved variants are `todo!()` in the
source, which panics — modelled as `none`. -/
def handle_message (m : Message) : Option HandlerAction :=
  match m with
  | .RequestPeerSuggestion => some .replyPeerSuggestion
  | .PeerSuggestion peers => some (.feedSuggestedPeers peers)
  | .RequestConnection _ => none
  | .ConnectionAccepted _ _ => none
  | .ConnectionDenied _ => none
  | .ConnectionHeartbeat _ => none
  | .ConnectionClose cid => some (.closeConnection cid)
  | .ConnectionData cid data => some (.forwardData cid data)

/-- `PeerEvent` from `transport/router.rs`; the `f32` duration is modelled
as a rational. -/
structure PeerEvent where
  time_taken : ℚ
  failed : Bool

/-- `PeerEvent::score`. -/
def PeerEvent.score (e : PeerEvent) : ℚ :=
  e.time_taken * (if e.failed then -1 else 1)

/-- `ScoreKeeper` from `transport/router.rs`: the per-peer 50-entry event
ring, as an association list (the `HashMap` iteration order is unspecified;
`packet_router` never inserts an event, so `best` is only ever evaluated on
the empty map). -/
structure ScoreKeeper where
  events : List (Nat × List PeerEvent)

/-- `ScoreKeeper::best`: the peer with the maximal event-score sum
(`Iterator::max_by` keeps the later of two equal maxima). -/
def ScoreKeeper.best (sk : ScoreKeeper) : Option Nat :=
  (sk.events.foldl
    (fun acc kv =>
      match acc with
      | none => some kv
      | some b =>
          if (b.2.map PeerEvent.score).sum ≤ (kv.2.map PeerEvent.score).sum then some kv
          else some b)
    none).map Prod.fst

/-- The environment one iteration of the routing loop observes: the
`rng.gen_ratio(10, 100)` draw, whether `request_write_packet` holds a
channel for the candidate, the result of the send on that channel, and the
peer (if any) delivered by the new-peer notification during the wait. -/
structure RouterEnv where
  use_new_candidate : Bool
  channel_present : Bool
  send_ok : Bool
  wait_new_peer : Option Nat

/-- The loop-local state of `packet_router` while routing one packet:
the `new_canidates` deque, the (never updated) score keeper and the
`tries_until_return_to_sender_allowed` counter. -/
structure RouterState where
  new_candidates : List Nat
  score_keeper : ScoreKeeper
  tries_until_return_to_sender_allowed : Nat

/-- The state the router starts a packet with (`new_canidates.clear()`,
counter at 5, the score keeper as it stands). -/
def RouterState.init (sk : ScoreKeeper) : RouterState :=
  { new_candidates := [], score_keeper := sk, tries_until_return_to_sender_allowed := 5 }

/-- What one iteration of the routing loop did. -/
inductive RouterOutcome where
  | sent (peer : Nat)
  | sendFailed (peer : Nat)
  | refusedLoopback (peer : Nat)
  | noChannel (peer : Nat)
  | noCandidate
deriving DecidableEq

/-- One iteration of the per-packet routing loop (`transport/router.rs`,
lines 78-151): pick a candidate (new-candidate pop or best score), refuse it
when it equals the origin while the counter is positive, try the send.  A
send error `continue`s — no counter decrement and no wait; every other
failure decrements the counter (`saturating_sub`) and appends the peer seen
while waiting to `new_canidates`. -/
def router_iteration (origin : Option Nat) (st : RouterState) (env : RouterEnv) :
    RouterOutcome × RouterState :=
  let candidate := if env.use_new_candidate then st.new_candidates.head? else
    st.score_keeper.best
  let cands := if env.use_new_candidate then st.new_candidates.tail else st.new_candidates
  let retreat : Nat → RouterState := fun _ =>
    { st with
        new_candidates := cands ++ env.wait_new_peer.toList
        tries_until_return_to_sender_allowed :=
          st.tries_until_return_to_sender_allowed - 1 }
  match candidate with
  | some peer =>
      if env.channel_present then
        if some peer ≠ origin ∨ st.tries_until_return_to_sender_allowed = 0 then
          if env.send_ok then (.sent peer, { st with new_candidates := cands })
          else (.sendFailed peer, { st with new_candidates := cands })
        else (.refusedLoopback peer, retreat 0)
      else (.noChannel peer, retreat 0)
  | none => (.noCandidate, retreat 0)

/-- The routing loop run against a finite prefix of environment
observations; it stops at the first successful send. -/
def router_run (origin : Option Nat) : RouterState → List RouterEnv → List RouterOutcome
  | _, [] => []
  | st, env :: rest =>
      match router_iteration origin st env with
      | (.sent p, _) => [.sent p]
      | (o, st2) => o :: router_run origin st2 rest

/-- The iterations that decrement `tries_until_return_to_sender_allowed`:
everything except a send and a send error. -/
def RouterOutcome.decrements : RouterOutcome → Bool
  | .sent _ => false
  | .sendFailed _ => false
  | _ => true

/-- An identity stand-in for the external decompressor/decoder in contexts
where compression is off. -/
def idBytes : List Nat → Option (List Nat) := fun b => some b

/-- A decompressor that rejects its input, as `decompress_size_prepended`
does on garbage. -/
def decFail : List Nat → Option (List Nat) := fun _ => none

/-- A payload one byte longer than 512 bodies can carry. -/
def bigPayload : List Nat :=
  List.replicate (MAX_BODIES_PER_MESSAGE * MAX_PACKET_PAYLOAD_SIZE + 1) 0

/-- A fully-arrived single-body pending message whose one body is the single
byte `b` (head with `body_count = 1` followed by a 1-byte partial body). -/
def smallFinishedEntry (b : Nat) : PendingMessage :=
  { head_arrived := true
    compression := false
    max_index_seen := 0
    total_bodies := some 1
    final_partial_body_length := some 1
    committed_bodies := fun i => decide (i = 0)
    bodies := [b] }

/-- An assembler at cursor 0 whose slot 1 holds the finished message id 1. -/
def assemblerPendingAt1 : MessageAssembler :=
  { current_message_id := 0
    pending_messages := fun j =>
      if j = (1 : Fin 16) then some (smallFinishedEntry 5) else none }

/-- An assembler at cursor 0 with a finished compressed message at id 0 and
a finished uncompressed message at id 1. -/
def assemblerCompressedAt0 : MessageAssembler :=
  { current_message_id := 0
    pending_messages := fun j =>
      if j = (0 : Fin 16) then some { smallFinishedEntry 9 with compression := true }
      else if j = (1 : Fin 16) then some (smallFinishedEntry 7) else none }

/-- An empty handshake tracker. -/
def htEmpty : Nat → Option HandshakeState := fun _ => none

/-- A transport tracker holding exactly the peer key 5. -/
def ttOnly5 : Nat → Option TransportState :=
  fun k => if k = 5 then some { remote_static := 5 } else none

/-- A snow `read_message` outcome that accepts the inbound handshake message
with an empty decrypted payload (the well-behaved case). -/
def readAccept : HandshakeState → Option (HandshakeState × Nat) := fun e => some (e, 0)

/-- The mutual-exclusion invariant of spec §3: no peer key has both a
handshake state and a transport state. -/
def mutexTrackers (ht : Nat → Option HandshakeState)
    (tt : Nat → Option TransportState) : Prop :=
  ∀ k, ht k = none ∨ tt k = none

/-- A router iteration environment: new-candidate draw, channel present,
send succeeds, nobody shows up while waiting. -/
def envPlain : RouterEnv :=
  { use_new_candidate := true, channel_present := true, send_ok := true,
    wait_new_peer := none }

/-- Like `envPlain` but peer 7 is announced during the wait. -/
def envNotify7 : RouterEnv := { envPlain with wait_new_peer := some 7 }

/-- Six iterations: five with no candidate available (peer 7 appearing
during the fifth wait), then one that selects peer 7. -/
def routerEnvsStarved : List RouterEnv :=
  [envPlain, envPlain, envPlain, envPlain, envNotify7, envPlain]

/-- The router state at the start of a packet, empty score keeper. -/
def routerStateFresh : RouterState := RouterState.init { events := [] }

/-- The tracker `MessageDisassembler::message` installs for a payload. -/
def trackerOf (payload : List Nat) (compression : Bool) (n : Nat) : PayloadTracker :=
  { payload := payload
    compression := compression
    head_confirmed := false
    body_count := n
    bodies_confirmed := [] }

/-- The disassembler after one `message([0])` on a fresh one: the tracker
sits under id 1 while `next_message_id` is still 0. -/
def disasmOne : MessageDisassembler :=
  { packets := fun k => if k = 1 then some (trackerOf [0] false 1) else none
    next_message_id := 0
    highest_message_id := 0 }

/-- The disassembler after a further `message([3])`: the id-1 tracker is
simply overwritten. -/
def disasmTwo : MessageDisassembler :=
  { packets := fun k => if k = 1 then some (trackerOf [3] false 1) else disasmOne.packets k
    next_message_id := 0
    highest_message_id := 0 }

/-- A finished handshake state whose remote static key is 5. -/
def hsFinished5 : HandshakeState :=
  { is_handshake_finished := true
    is_my_turn := false
    remote_static := 5
    write_result := none }

/-- A handshake tracker holding exactly the peer key 5. -/
def htOnly5 : Nat → Option HandshakeState := fun k => if k = 5 then some hsFinished5 else none

/-- An empty transport tracker. -/
def ttEmpty : Nat → Option TransportState := fun _ => none

/-- **C1.** The claimed disassembler-to-assembler round trip fails on the
code: `MessageDisassembler::message` installs the tracker under
`highest_message_id.wrapping_add(1) = 1` but never updates
`highest_message_id`, while `payloads()` only ever inspects
`next_message_id = 0` — so after enqueueing any message into a fresh
disassembler, `payloads()` emits no segments at all, and a fresh assembler,
fed nothing, delivers nothing instead of the message. -/
theorem c1_first_message_emits_nothing (payload : List Nat) (compression : Bool)
    (s1 : MessageDisassembler) (id1 : Nat)
    (h : MessageDisassembler.init.message payload compression = some (s1, id1)) :
    s1.payloads.1 = none ∧
    (MessageAssembler.init.next_message idBytes idBytes).1 = none := by
  refine ⟨?_, rfl⟩
  simp only [MessageDisassembler.message] at h
  split at h
  · exact Option.noConfusion h
  · simp only [Option.some.injEq, Prod.mk.injEq] at h
    obtain ⟨hs, hi⟩ := h
    subst hs
    rfl

/-- **C1 witness**: the failure evaluated at the one-byte payload `[0]`
(the bincode encoding of `Message::RequestPeerSuggestion`, sent raw). -/
theorem c1_first_message_emits_nothing_witness :
    MessageDisassembler.init.message [0] false = some (disasmOne, 1) ∧
    (disasmOne.payloads.1 = none ∧
      (MessageAssembler.init.next_message idBytes idBytes).1 = none) :=
  ⟨rfl, c1_first_message_emits_nothing [0] false disasmOne 1 rfl⟩

/-- **C2.** The ids assigned by successive `MessageDisassembler::message`
calls do not increase: `highest_message_id` is read but never written, so
every call returns `highest_message_id.wrapping_add(1)` of the same stored
value — the (k+1)-th id equals the k-th id, not the k-th id plus one.  The
file's own tests (`multiple_nonconfirmed_messages`) expect ids 0 then 1. -/
theorem c2_successive_ids_equal (s : MessageDisassembler) (p1 p2 : List Nat)
    (c1 c2 : Bool) (s1 s2 : MessageDisassembler) (i1 i2 : Nat)
    (h1 : s.message p1 c1 = some (s1, i1)) (h2 : s1.message p2 c2 = some (s2, i2)) :
    i1 = i2 ∧ i1 = wadd1 s.highest_message_id := by
  simp only [MessageDisassembler.message] at h1 h2
  split at h1
  · exact Option.noConfusion h1
  · simp only [Option.some.injEq, Prod.mk.injEq] at h1
    obtain ⟨hs1, hi1⟩ := h1
    subst hs1
    split at h2
    · exact Option.noConfusion h2
    · simp only [Option.some.injEq, Prod.mk.injEq] at h2
      obtain ⟨hs2, hi2⟩ := h2
      exact ⟨hi1.symm.trans hi2, hi1.symm⟩

/-- **C2 witness**: two enqueues on a fresh disassembler both return id 1. -/
theorem c2_successive_ids_equal_witness :
    (MessageDisassembler.init.message [0] false = some (disasmOne, 1) ∧
      disasmOne.message [3] false = some (disasmTwo, 1)) ∧
    (1 = 1 ∧ 1 = wadd1 MessageDisassembler.init.highest_message_id) :=
  ⟨⟨rfl, rfl⟩,
   c2_successive_ids_equal MessageDisassembler.init [0] [3] false false
     disasmOne disasmTwo 1 1 rfl rfl⟩

/-- **C9.** The four reserved `Message` variants are not accepted and
ignored cleanly: `handle_message` hits `todo!()` (a panic, modelled as
`none`) on each of them. -/
theorem c9_reserved_variants_panic :
    handle_message (Message.RequestConnection 0) = none ∧
    handle_message (Message.ConnectionAccepted 0 0) = none ∧
    handle_message (Message.ConnectionDenied 0) = none ∧
    handle_message (Message.ConnectionHeartbeat 0) = none :=
  ⟨rfl, rfl, rfl, rfl⟩

/-- **C4.** When the handshake filed under key `K` is finished,
`handshake_continue` removes it, extracts the remote static key, and —
only when that key equals `K` — installs a transport state, for `K` and
for no other key; on a mismatch the transport tracker is untouched. -/
theorem c4_identity_binding (selfKey : Nat) (ht : Nat → Option HandshakeState)
    (tt : Nat → Option TransportState) (K : Nat) (hs : HandshakeState)
    (hK : ht K = some hs) (hfin : hs.is_handshake_finished = true) :
    (handshake_continue_step selfKey ht tt K).1 K = none ∧
    (hs.remote_static ≠ K → ∀ j, (handshake_continue_step selfKey ht tt K).2.1 j = tt j) ∧
    (hs.remote_static = K →
      (handshake_continue_step selfKey ht tt K).2.1 K = some hs.into_transport ∧
      ∀ j, j ≠ K → (handshake_continue_step selfKey ht tt K).2.1 j = tt j) := by
  by_cases hrs : hs.remote_static = K
  · have e : handshake_continue_step selfKey ht tt K =
        ((fun k => if k = K then none else ht k),
         (fun k => if k = K then some hs.into_transport else tt k), none) := by
      unfold handshake_continue_step
      rw [hK]
      simp [hfin, HandshakeState.into_transport, hrs]
    rw [e]
    exact ⟨by simp, fun hne => absurd hrs hne,
      fun _ => ⟨by simp, fun j hj => by simp [hj]⟩⟩
  · have e : handshake_continue_step selfKey ht tt K =
        ((fun k => if k = K then none else ht k), tt, none) := by
      unfold handshake_continue_step
      rw [hK]
      simp [hfin, HandshakeState.into_transport, Ne.symm hrs]
    rw [e]
    exact ⟨by simp, fun _ j => rfl, fun heq => absurd heq hrs⟩

/-- **C4 witness**: a finished handshake under key 5 whose remote static is
5 is promoted into the transport tracker. -/
theorem c4_identity_binding_witness :
    (htOnly5 5 = some hsFinished5 ∧ hsFinished5.is_handshake_finished = true) ∧
    ((handshake_continue_step 9 htOnly5 ttEmpty 5).1 5 = none ∧
      (hsFinished5.remote_static ≠ 5 →
        ∀ j, (handshake_continue_step 9 htOnly5 ttEmpty 5).2.1 j = ttEmpty j) ∧
      (hsFinished5.remote_static = 5 →
        (handshake_continue_step 9 htOnly5 ttEmpty 5).2.1 5 = some hsFinished5.into_transport ∧
        ∀ j, j ≠ 5 → (handshake_continue_step 9 htOnly5 ttEmpty 5).2.1 j = ttEmpty j)) :=
  ⟨⟨rfl, rfl⟩, c4_identity_binding 9 htOnly5 ttEmpty 5 hsFinished5 rfl rfl⟩

/-- **C10.** A packet with `destination = None` carrying a `MessageSegment`
from a source with a live transport state is not dropped: the reader takes
the open-and-feed branch, exactly as it does for the same packet addressed
to us (the warning that logs it as discarded has no `continue`). -/
theorem c10_anonymous_segment_fed (selfKey src : Nat)
    (tt : Nat → Option TransportState) (ts : TransportState) (d : List Nat)
    (hne : src ≠ selfKey) (htt : tt src = some ts) :
    packet_reader_classify selfKey tt
        { source := src, destination := none, data := PacketData.MessageSegment d } =
      ReaderAction.openAndFeedSegment src d ∧
    packet_reader_classify selfKey tt
        { source := src, destination := none, data := PacketData.MessageSegment d } =
      packet_reader_classify selfKey tt
        { source := src, destination := some selfKey, data := PacketData.MessageSegment d } := by
  unfold packet_reader_classify
  simp [hne, Ne.symm hne, htt]

/-- **C10 witness**: key-5 source, ourselves at key 9, transport present. -/
theorem c10_anonymous_segment_fed_witness :
    ((5 : Nat) ≠ 9 ∧ ttOnly5 5 = some { remote_static := 5 }) ∧
    (packet_reader_classify 9 ttOnly5
        { source := 5, destination := none, data := PacketData.MessageSegment [1, 2] } =
      ReaderAction.openAndFeedSegment 5 [1, 2] ∧
    packet_reader_classify 9 ttOnly5
        { source := 5, destination := none, data := PacketData.MessageSegment [1, 2] } =
      packet_reader_classify 9 ttOnly5
        { source := 5, destination := some 9, data := PacketData.MessageSegment [1, 2] }) :=
  ⟨⟨by decide, rfl⟩,
   c10_anonymous_segment_fed 9 5 ttOnly5 { remote_static := 5 } [1, 2] (by decide) rfl⟩

/-- **C5 counterexample.** The claimed mutual exclusion of handshake and
transport trackers is not preserved by handshake-entry creation: with a
live transport for key 5 and no handshake states, an inbound handshake
packet from key 5 makes `packet_reader` insert a handshake entry for 5
(`entry(source).or_insert_with(create_handshake_responder)`), after which
both trackers hold key 5. -/
theorem c5_counterexample_coexisting_states :
    mutexTrackers htEmpty ttOnly5 ∧
    ¬ mutexTrackers (reader_handshake_step htEmpty 5 readAccept) ttOnly5 := by
  refine ⟨fun _ => Or.inl rfl, fun h => ?_⟩
  rcases h 5 with h5 | h5
  · have hv : reader_handshake_step htEmpty 5 readAccept 5 = some create_handshake_responder :=
      rfl
    rw [hv] at h5
    exact Option.noConfusion h5
  · have hv : ttOnly5 5 = some { remote_static := 5 } := rfl
    rw [hv] at h5
    exact Option.noConfusion h5

/-- **C5 (amended).** Promotion itself is atomic and does preserve the
mutual exclusion: one pass of `handshake_continue` over any entry removes
the handshake state before (and only when the identity matches) installing
the transport state, so a mutually-exclusive pair of trackers stays
mutually exclusive.  (The creation paths are what break the invariant, per
the counterexample.) -/
theorem c5_amended_promotion_preserves_mutex (selfKey : Nat)
    (ht : Nat → Option HandshakeState) (tt : Nat → Option TransportState)
    (source : Nat) (h : mutexTrackers ht tt) :
    mutexTrackers (handshake_continue_step selfKey ht tt source).1
      (handshake_continue_step selfKey ht tt source).2.1 := by
  rcases hsrc : ht source with _ | hs
  · have e : handshake_continue_step selfKey ht tt source = (ht, tt, none) := by
      unfold handshake_continue_step
      rw [hsrc]
    rw [e]
    exact h
  · by_cases hfin : hs.is_handshake_finished
    · by_cases hrs : source = hs.into_transport.remote_static
      · have e : handshake_continue_step selfKey ht tt source =
            ((fun k => if k = source then none else ht k),
             (fun k => if k = source then some hs.into_transport else tt k), none) := by
          unfold handshake_continue_step
          rw [hsrc]
          simp [hfin, hrs]
        rw [e]
        intro k
        by_cases hk : k = source
        · subst hk
          simp
        · simp only [if_neg hk]
          exact h k
      · have e : handshake_continue_step selfKey ht tt source =
            ((fun k => if k = source then none else ht k), tt, none) := by
          unfold handshake_continue_step
          rw [hsrc]
          simp [hfin, hrs]
        rw [e]
        intro k
        by_cases hk : k = source
        · subst hk
          simp
        · simp only [if_neg hk]
          exact h k
    · by_cases hturn : hs.is_my_turn
      · rcases hw : hs.write_result with _ | msg
        · have e : handshake_continue_step selfKey ht tt source =
              ((fun k => if k = source then none else ht k), tt, none) := by
            unfold handshake_continue_step
            rw [hsrc]
            simp [hfin, hturn, hw]
          rw [e]
          intro k
          by_cases hk : k = source
          · subst hk
            simp
          · simp only [if_neg hk]
            exact h k
        · have e : handshake_continue_step selfKey ht tt source =
              (ht, tt, some { source := selfKey, destination := some source,
                              data := PacketData.Handshake msg }) := by
            unfold handshake_continue_step
            rw [hsrc]
            simp [hfin, hturn, hw]
          rw [e]
          exact h
      · have e : handshake_continue_step selfKey ht tt source = (ht, tt, none) := by
          unfold handshake_continue_step
          rw [hsrc]
          simp [hfin, hturn]
        rw [e]
        exact h

/-- **C5 witness**: promotion applied to an empty handshake tracker and a
transport tracker holding key 5. -/
theorem c5_amended_promotion_preserves_mutex_witness :
    mutexTrackers htEmpty ttOnly5 ∧
    mutexTrackers (handshake_continue_step 9 htEmpty ttOnly5 5).1
      (handshake_continue_step 9 htEmpty ttOnly5 5).2.1 :=
  ⟨fun _ => Or.inl rfl,
   c5_amended_promotion_preserves_mutex 9 htEmpty ttOnly5 5 (fun _ => Or.inl rfl)⟩

theorem wsub_self (c : Nat) : wsub c c = 0 := by
  unfold wsub U16_MOD
  omega

/-- **C6 counterexample.** With a finished compressed message at the cursor
(id 0) whose bytes the decompressor rejects, and a finished plain message at
id 1: `next()` returns `none` but the cursor stays at 0 (the claim says it
advances to 1), and the following call hands out message 1's bytes labeled
with id 0 (the claim says id 1's message is delivered at id 1). -/
theorem c6_counterexample_cursor_not_advanced :
    (assemblerCompressedAt0.next decFail).1 = none ∧
    (assemblerCompressedAt0.next decFail).2.current_message_id = 0 ∧
    ((assemblerCompressedAt0.next decFail).2.next decFail).1 = some ([7], 0) :=
  ⟨rfl, rfl, rfl⟩

/-- **C6 (amended).** When the finished message at the cursor is marked
compressed and decompression of its bytes fails, `next()` returns `none`
for that id and the message is dropped from the ring (the ring advances one
slot), but the cursor is **not** advanced; a message finished at the next
id is delivered by the following call, labeled with the failed id. -/
theorem next_of_finished_plain (dec : List Nat → Option (List Nat))
    (s2 : MessageAssembler) (e1 : PendingMessage)
    (h : s2.pending_messages (slotIdx 0) = some e1) (hf : e1.finishedEntry = true)
    (hc : e1.compression = false) :
    s2.next dec = (some (e1.bodies, s2.current_message_id),
      { current_message_id := wadd1 s2.current_message_id,
        pending_messages := ringShift s2.pending_messages }) := by
  have hisf : s2.is_finished s2.current_message_id = true := by
    unfold MessageAssembler.is_finished
    rw [wsub_self, h]
    exact hf
  unfold MessageAssembler.next
  rw [hisf, if_pos rfl, h]
  simp [hc]

theorem next_of_finished_compressed_fail (dec : List Nat → Option (List Nat))
    (s2 : MessageAssembler) (e : PendingMessage)
    (h : s2.pending_messages (slotIdx 0) = some e) (hf : e.finishedEntry = true)
    (hc : e.compression = true) (hdec : dec e.bodies = none) :
    s2.next dec = (none,
      { current_message_id := s2.current_message_id,
        pending_messages := ringShift s2.pending_messages }) := by
  have hisf : s2.is_finished s2.current_message_id = true := by
    unfold MessageAssembler.is_finished
    rw [wsub_self, h]
    exact hf
  unfold MessageAssembler.next
  rw [hisf, if_pos rfl, h]
  simp [hc, hdec]

theorem ringShift_zero (ring : Fin 16 → Option PendingMessage) :
    ringShift ring (slotIdx 0) = ring (slotIdx 1) := by
  unfold ringShift
  rw [dif_pos (by decide : (slotIdx 0).val + 1 < 16)]
  congr 1

theorem c6_amended_failure_drops_but_keeps_cursor (dec : List Nat → Option (List Nat))
    (s : MessageAssembler) (e : PendingMessage)
    (h0 : s.pending_messages (slotIdx 0) = some e)
    (hfin : e.finishedEntry = true) (hc : e.compression = true)
    (hdec : dec e.bodies = none) :
    (s.next dec).1 = none ∧
    (s.next dec).2.current_message_id = s.current_message_id ∧
    (s.next dec).2.pending_messages = ringShift s.pending_messages ∧
    ∀ e1, s.pending_messages (slotIdx 1) = some e1 → e1.finishedEntry = true →
      e1.compression = false →
      ((s.next dec).2.next dec).1 = some (e1.bodies, s.current_message_id) := by
  have hnext := next_of_finished_compressed_fail dec s e h0 hfin hc hdec
  refine ⟨by rw [hnext], by rw [hnext], by rw [hnext], ?_⟩
  intro e1 h1 hf1 hc1
  have hslot : ringShift s.pending_messages (slotIdx 0) = some e1 := by
    rw [ringShift_zero, h1]
  have hdeliver := next_of_finished_plain dec
    { current_message_id := s.current_message_id,
      pending_messages := ringShift s.pending_messages } e1 hslot hf1 hc1
  rw [hnext]
  exact congrArg Prod.fst hdeliver

/-- **C6 witness**: the amended behavior evaluated on the concrete
two-message assembler with the failing decompressor. -/
theorem c6_amended_failure_drops_but_keeps_cursor_witness :
    (assemblerCompressedAt0.pending_messages (slotIdx 0) =
        some { smallFinishedEntry 9 with compression := true } ∧
      PendingMessage.finishedEntry { smallFinishedEntry 9 with compression := true } = true ∧
      decFail (smallFinishedEntry 9).bodies = none) ∧
    ((assemblerCompressedAt0.next decFail).1 = none ∧
      (assemblerCompressedAt0.next decFail).2.current_message_id =
        assemblerCompressedAt0.current_message_id ∧
      (assemblerCompressedAt0.next decFail).2.pending_messages =
        ringShift assemblerCompressedAt0.pending_messages ∧
      ∀ e1, assemblerCompressedAt0.pending_messages (slotIdx 1) = some e1 →
        e1.finishedEntry = true → e1.compression = false →
        ((assemblerCompressedAt0.next decFail).2.next decFail).1 =
          some (e1.bodies, assemblerCompressedAt0.current_message_id)) :=
  ⟨⟨rfl, rfl, rfl⟩,
   c6_amended_failure_drops_but_keeps_cursor decFail assemblerCompressedAt0
     { smallFinishedEntry 9 with compression := true } rfl rfl rfl rfl⟩

theorem message_eq_of_ok (s : MessageDisassembler) (payload : List Nat) (c : Bool)
    (h : ¬ ((payload.length + MAX_PACKET_PAYLOAD_SIZE - 1) / MAX_PACKET_PAYLOAD_SIZE = 0 ∨
        U16_MOD ≤ (payload.length + MAX_PACKET_PAYLOAD_SIZE - 1) / MAX_PACKET_PAYLOAD_SIZE)) :
    s.message payload c = some
      ({ s with
          packets := fun k =>
            if k = wadd1 s.highest_message_id then
              some (trackerOf payload c
                ((payload.length + MAX_PACKET_PAYLOAD_SIZE - 1) / MAX_PACKET_PAYLOAD_SIZE))
            else s.packets k },
        wadd1 s.highest_message_id) := by
  simp only [MessageDisassembler.message]
  rw [if_neg h]
  rfl

theorem body_mem_emission (tracker : PayloadTracker) (i : Nat) (d : List Nat)
    (h : MessagePayload.Body i d ∈ trackerEmission tracker) :
    i < tracker.body_count := by
  unfold trackerEmission at h
  rcases List.mem_append.1 h with h | h
  · split at h
    · exact absurd h (List.not_mem_nil _)
    · simp at h
  · rcases List.mem_filterMap.1 h with ⟨a, ha, hfa⟩
    split at hfa
    · exact Option.noConfusion hfa
    · simp only [Option.some.injEq] at hfa
      injection hfa with h1 h2
      subst h1
      exact List.mem_range.1 ha

/-- **C7 counterexample.** `MessageDisassembler::message` never caps the
body count at `MAX_BODIES_PER_MESSAGE`: a payload one byte longer than 512
bodies can carry (reachable as a large high-entropy `ConnectionData` that
the entropy heuristic leaves uncompressed) installs a tracker with
`body_count = 513 > 512`. -/
theorem c7_counterexample_body_count_exceeds_512 :
    (MessageDisassembler.init.message bigPayload false).map
      (fun p => (p.1.packets 1).map PayloadTracker.body_count) = some (some 513) ∧
    ¬ (513 : Nat) ≤ MAX_BODIES_PER_MESSAGE := by
  constructor
  · have hlen : bigPayload.length = MAX_BODIES_PER_MESSAGE * MAX_PACKET_PAYLOAD_SIZE + 1 := by
      simp [bigPayload]
    have hbc : (bigPayload.length + MAX_PACKET_PAYLOAD_SIZE - 1) / MAX_PACKET_PAYLOAD_SIZE =
        513 := by
      rw [hlen]
      norm_num [MAX_BODIES_PER_MESSAGE, MAX_PACKET_PAYLOAD_SIZE]
    rw [message_eq_of_ok MessageDisassembler.init bigPayload false (by
      rw [hbc]
      norm_num [U16_MOD])]
    simp [trackerOf, hbc, wadd1, U16_MOD, MessageDisassembler.init]
  · norm_num [MAX_BODIES_PER_MESSAGE]

/-- **C7 (amended).** For every enqueued message whose processed payload is
nonempty and at most `512 × MAX_PACKET_PAYLOAD_SIZE` bytes, the installed
tracker's `body_count` lies in `[1, 512]`; and whenever every tracker in
the map respects that bound, every `Body` segment `payloads()` emits
carries an index in `[0, 511]`.  (The unamended claim fails for larger
payloads, per the counterexample.) -/
theorem c7_amended_bodies_bounded (s : MessageDisassembler) (payload : List Nat)
    (compression : Bool) (h1 : 1 ≤ payload.length)
    (h2 : payload.length ≤ MAX_BODIES_PER_MESSAGE * MAX_PACKET_PAYLOAD_SIZE) :
    (∃ s2 id t, s.message payload compression = some (s2, id) ∧
        s2.packets id = some t ∧ 1 ≤ t.body_count ∧
        t.body_count ≤ MAX_BODIES_PER_MESSAGE) ∧
    (∀ s3 : MessageDisassembler,
      (∀ k t, s3.packets k = some t → t.body_count ≤ MAX_BODIES_PER_MESSAGE) →
      ∀ id ps i d, s3.payloads.1 = some (id, ps) →
        MessagePayload.Body i d ∈ ps → i < MAX_BODIES_PER_MESSAGE) := by
  constructor
  · have hM : 0 < MAX_PACKET_PAYLOAD_SIZE := by norm_num [MAX_PACKET_PAYLOAD_SIZE]
    have hbc1 : 1 ≤ (payload.length + MAX_PACKET_PAYLOAD_SIZE - 1) /
        MAX_PACKET_PAYLOAD_SIZE := by
      rw [Nat.le_div_iff_mul_le hM]
      omega
    have hbc2 : (payload.length + MAX_PACKET_PAYLOAD_SIZE - 1) / MAX_PACKET_PAYLOAD_SIZE ≤
        MAX_BODIES_PER_MESSAGE := by
      rw [Nat.div_le_iff_le_mul_add_pred hM]
      unfold MAX_BODIES_PER_MESSAGE at h2 ⊢
      omega
    have hcond : ¬ ((payload.length + MAX_PACKET_PAYLOAD_SIZE - 1) /
          MAX_PACKET_PAYLOAD_SIZE = 0 ∨
        U16_MOD ≤ (payload.length + MAX_PACKET_PAYLOAD_SIZE - 1) / MAX_PACKET_PAYLOAD_SIZE) := by
      unfold U16_MOD MAX_BODIES_PER_MESSAGE at *
      omega
    refine ⟨_, _, trackerOf payload compression _,
      message_eq_of_ok s payload compression hcond, ?_, hbc1, hbc2⟩
    simp
  · intro s3 hall id ps i d hps hmem
    unfold MessageDisassembler.payloads at hps
    rcases hpk : s3.packets s3.next_message_id with _ | tracker
    · rw [hpk] at hps
      exact Option.noConfusion hps
    · rw [hpk] at hps
      by_cases hemp : (trackerEmission tracker).isEmpty
      · simp only [hemp, if_true] at hps
        exact Option.noConfusion hps
      · simp only [hemp, Bool.false_eq_true, if_false, Option.some.injEq,
          Prod.mk.injEq] at hps
        obtain ⟨hid, hpse⟩ := hps
        subst hpse
        exact lt_of_lt_of_le (body_mem_emission tracker i d hmem) (hall _ _ hpk)

/-- **C7 witness**: the amended bound evaluated at the one-byte payload. -/
theorem c7_amended_bodies_bounded_witness :
    (1 ≤ ([0] : List Nat).length ∧
      ([0] : List Nat).length ≤ MAX_BODIES_PER_MESSAGE * MAX_PACKET_PAYLOAD_SIZE) ∧
    ((∃ s2 id t, MessageDisassembler.init.message [0] false = some (s2, id) ∧
        s2.packets id = some t ∧ 1 ≤ t.body_count ∧
        t.body_count ≤ MAX_BODIES_PER_MESSAGE) ∧
    (∀ s3 : MessageDisassembler,
      (∀ k t, s3.packets k = some t → t.body_count ≤ MAX_BODIES_PER_MESSAGE) →
      ∀ id ps i d, s3.payloads.1 = some (id, ps) →
        MessagePayload.Body i d ∈ ps → i < MAX_BODIES_PER_MESSAGE)) :=
  ⟨⟨by norm_num, by norm_num [MAX_BODIES_PER_MESSAGE, MAX_PACKET_PAYLOAD_SIZE]⟩,
   c7_amended_bodies_bounded MessageDisassembler.init [0] false (by norm_num)
     (by norm_num [MAX_BODIES_PER_MESSAGE, MAX_PACKET_PAYLOAD_SIZE])⟩

theorem totalAtMost_not (o : Option Nat) (i t : Nat) (h : ¬ totalAtMost o i = true)
    (ht : o = some t) : i < t := by
  subst ht
  simp [totalAtMost] at h
  omega

theorem bodyTotals_fp (e0 : PendingMessage) (index : Nat) (data : List Nat) :
    (bodyTotals e0 index data).final_partial_body_length =
      if data.length < MAX_PACKET_PAYLOAD_SIZE then some data.length
      else e0.final_partial_body_length := by
  unfold bodyTotals
  split_ifs <;> rfl

theorem expectedSize_gt (e3 : PendingMessage) (index : Nat)
    (htot : ∀ t, e3.total_bodies = some t → index < t)
    (hmax : e3.total_bodies = none → index ≤ e3.max_index_seen)
    (hfp : ∀ f, e3.final_partial_body_length = some f → 1 ≤ f) :
    index * MAX_PACKET_PAYLOAD_SIZE < expectedSize e3 := by
  unfold expectedSize
  rcases ht : e3.total_bodies with _ | t
  · have h1 := hmax ht
    rcases hf : e3.final_partial_body_length with _ | f
    · simp only [ht, hf, partialCorrection]
      unfold MAX_PACKET_PAYLOAD_SIZE
      omega
    · have h2 := hfp f hf
      simp only [ht, hf, partialCorrection]
      unfold MAX_PACKET_PAYLOAD_SIZE
      omega
  · have h1 := htot t ht
    rcases hf : e3.final_partial_body_length with _ | f
    · simp only [ht, hf, partialCorrection]
      unfold MAX_PACKET_PAYLOAD_SIZE
      omega
    · have h2 := hfp f hf
      simp only [ht, hf, partialCorrection]
      unfold MAX_PACKET_PAYLOAD_SIZE
      omega

theorem body_some_shape (s : MessageAssembler) (mid index : Nat) (data : List Nat)
    (s2 : MessageAssembler) (h : s.body mid index data = some s2) :
    s2.current_message_id = s.current_message_id ∧
    ∀ j, j ≠ slotIdx (wsub mid s.current_message_id) →
      s2.pending_messages j = s.pending_messages j := by
  simp only [MessageAssembler.body] at h
  split_ifs at h
  all_goals first
    | exact Option.noConfusion h
    | (injection h with h2
       subst h2
       exact ⟨rfl, fun j hj => if_neg hj⟩)

theorem head_shape (s : MessageAssembler) (mid body_count : Nat) (compression : Bool) :
    (s.head mid body_count compression).current_message_id = s.current_message_id ∧
    ∀ j, j ≠ slotIdx (wsub mid s.current_message_id) →
      (s.head mid body_count compression).pending_messages j = s.pending_messages j := by
  simp only [MessageAssembler.head]
  split_ifs <;> exact ⟨rfl, fun j hj => if_neg hj⟩

theorem body_no_panic (s : MessageAssembler) (mid index : Nat) (data : List Nat)
    (hidx : index < MAX_BODIES_PER_MESSAGE)
    (hwf : ∀ e f, s.pending_messages (slotIdx (wsub mid s.current_message_id)) = some e →
      e.final_partial_body_length = some f → 1 ≤ f ∧ f < MAX_PACKET_PAYLOAD_SIZE) :
    (s.body mid index data).isSome = true := by
  simp only [MessageAssembler.body]
  split_ifs with c1 c2 c3 c4 c5 c6 c7 c8
  · rfl
  · rfl
  · rfl
  · exfalso
    unfold U16_MOD MAX_BODIES_PER_MESSAGE at *
    omega
  · rfl
  · exfalso
    refine absurd c6 (Nat.not_le.2 (expectedSize_gt _ index ?_ ?_ ?_))
    · intro t ht
      exact totalAtMost_not _ index t c5 ht
    · intro _
      exact Nat.le_max_left index _
    · intro f hf
      have hf2 : (bodyTotals
          ((s.pending_messages (slotIdx (wsub mid s.current_message_id))).getD
            PendingMessage.init) index data).final_partial_body_length = some f := hf
      rw [bodyTotals_fp] at hf2
      split at hf2
      · injection hf2 with hf3
        omega
      · rcases hsl : s.pending_messages (slotIdx (wsub mid s.current_message_id)) with _ | e
        · rw [hsl] at hf2
          simp [PendingMessage.init] at hf2
        · rw [hsl] at hf2
          simp only [Option.getD_some] at hf2
          exact (hwf e f hsl hf2).1
  · rfl
  · exfalso
    unfold MAX_BODIES_PER_MESSAGE at *
    omega
  · rfl

theorem is_finished_congr (s2 s : MessageAssembler)
    (hcur : s2.current_message_id = s.current_message_id) (id2 : Nat)
    (hslot : s2.pending_messages (slotIdx (wsub id2 s.current_message_id)) =
      s.pending_messages (slotIdx (wsub id2 s.current_message_id))) :
    s2.is_finished id2 = s.is_finished id2 := by
  unfold MessageAssembler.is_finished
  rw [hcur, hslot]

theorem slotIdx_ne (a b : Nat) (ha : a < MARGIN_OF_OUT_OF_ORDER_ALLOWED)
    (hb : b < MARGIN_OF_OUT_OF_ORDER_ALLOWED) (hne : a ≠ b) : slotIdx a ≠ slotIdx b := by
  unfold slotIdx MARGIN_OF_OUT_OF_ORDER_ALLOWED at *
  intro h
  rw [Fin.mk.injEq] at h
  omega

/-- **C3 counterexample.**  Hostile calls are not confined to the slot of
the id they name.  With the finished message id 1 pending (cursor at 0):
an empty body — a violating call — naming id 17 lands in ring slot
`17 mod 16 = 1` (the ringbuffer's `get_mut` wraps indices modulo its
length) and empties id 1's slot, so id 1 no longer reassembles; and a
single body call with index 600 (below any declared count, since no head
arrived) panics outright on the `committed_bodies[600]` array write — a
failure not confined to any slot. -/
theorem c3_counterexample_neighbor_destroyed :
    assemblerPendingAt1.is_finished 1 = true ∧
    ((assemblerPendingAt1.body 17 0 []).map fun s2 => s2.is_finished 1) = some false ∧
    assemblerPendingAt1.body 0 600 [7] = none :=
  ⟨rfl, rfl, rfl⟩

/-- **C3 (amended).**  Provided the named message id lies within the 16-id
reordering window and a body's index is below `MAX_BODIES_PER_MESSAGE`
(and the slot's recorded partial-body length, when present, is a genuine
`NonZero<u16>` below `MAX_PACKET_PAYLOAD_SIZE`, as every reachable slot
has), any `body` call — violating or not — completes without panic and
affects only the slot of the id it names, and any `head` call likewise:
every other in-window id keeps its slot contents and its finished status.
Outside those bounds the claim fails, per the counterexample. -/
theorem c3_amended_slot_isolation (s : MessageAssembler) (message_id index body_count : Nat)
    (data : List Nat) (compression : Bool)
    (hwin : wsub message_id s.current_message_id < MARGIN_OF_OUT_OF_ORDER_ALLOWED)
    (hidx : index < MAX_BODIES_PER_MESSAGE)
    (hwf : ∀ e f, s.pending_messages (slotIdx (wsub message_id s.current_message_id)) = some e →
      e.final_partial_body_length = some f → 1 ≤ f ∧ f < MAX_PACKET_PAYLOAD_SIZE) :
    (∃ s2, s.body message_id index data = some s2 ∧
      s2.current_message_id = s.current_message_id ∧
      ∀ id2, wsub id2 s.current_message_id < MARGIN_OF_OUT_OF_ORDER_ALLOWED →
        wsub id2 s.current_message_id ≠ wsub message_id s.current_message_id →
        s2.pending_messages (slotIdx (wsub id2 s.current_message_id)) =
          s.pending_messages (slotIdx (wsub id2 s.current_message_id)) ∧
        s2.is_finished id2 = s.is_finished id2) ∧
    ((s.head message_id body_count compression).current_message_id = s.current_message_id ∧
      ∀ id2, wsub id2 s.current_message_id < MARGIN_OF_OUT_OF_ORDER_ALLOWED →
        wsub id2 s.current_message_id ≠ wsub message_id s.current_message_id →
        (s.head message_id body_count compression).pending_messages
            (slotIdx (wsub id2 s.current_message_id)) =
          s.pending_messages (slotIdx (wsub id2 s.current_message_id)) ∧
        (s.head message_id body_count compression).is_finished id2 = s.is_finished id2) := by
  constructor
  · obtain ⟨s2, hs2⟩ :=
      Option.isSome_iff_exists.1 (body_no_panic s message_id index data hidx hwf)
    obtain ⟨hcur, hslots⟩ := body_some_shape s message_id index data s2 hs2
    refine ⟨s2, hs2, hcur, fun id2 h2win h2ne => ?_⟩
    have hp := hslots _ (slotIdx_ne _ _ h2win hwin h2ne)
    exact ⟨hp, is_finished_congr s2 s hcur id2 hp⟩
  · obtain ⟨hcur2, hslots2⟩ := head_shape s message_id body_count compression
    refine ⟨hcur2, fun id2 h2win h2ne => ?_⟩
    have hp := hslots2 _ (slotIdx_ne _ _ h2win hwin h2ne)
    exact ⟨hp, is_finished_congr _ s hcur2 id2 hp⟩

/-- **C3 witness**: an in-window call (id 2, body index 0) against the
assembler holding the finished message id 1. -/
theorem c3_amended_slot_isolation_witness :
    (wsub 2 assemblerPendingAt1.current_message_id < MARGIN_OF_OUT_OF_ORDER_ALLOWED ∧
      0 < MAX_BODIES_PER_MESSAGE) ∧
    ((∃ s2, assemblerPendingAt1.body 2 0 [4] = some s2 ∧
      s2.current_message_id = assemblerPendingAt1.current_message_id ∧
      ∀ id2, wsub id2 assemblerPendingAt1.current_message_id <
          MARGIN_OF_OUT_OF_ORDER_ALLOWED →
        wsub id2 assemblerPendingAt1.current_message_id ≠
          wsub 2 assemblerPendingAt1.current_message_id →
        s2.pending_messages (slotIdx (wsub id2 assemblerPendingAt1.current_message_id)) =
          assemblerPendingAt1.pending_messages
            (slotIdx (wsub id2 assemblerPendingAt1.current_message_id)) ∧
        s2.is_finished id2 = assemblerPendingAt1.is_finished id2) ∧
    ((assemblerPendingAt1.head 2 1 false).current_message_id =
        assemblerPendingAt1.current_message_id ∧
      ∀ id2, wsub id2 assemblerPendingAt1.current_message_id <
          MARGIN_OF_OUT_OF_ORDER_ALLOWED →
        wsub id2 assemblerPendingAt1.current_message_id ≠
          wsub 2 assemblerPendingAt1.current_message_id →
        (assemblerPendingAt1.head 2 1 false).pending_messages
            (slotIdx (wsub id2 assemblerPendingAt1.current_message_id)) =
          assemblerPendingAt1.pending_messages
            (slotIdx (wsub id2 assemblerPendingAt1.current_message_id)) ∧
        (assemblerPendingAt1.head 2 1 false).is_finished id2 =
          assemblerPendingAt1.is_finished id2)) :=
  ⟨⟨by decide, by decide⟩,
   c3_amended_slot_isolation assemblerPendingAt1 2 0 1 [4] false (by decide) (by decide)
     (fun e f h => Option.noConfusion h)⟩

theorem router_iteration_tries (origin : Option Nat) (st : RouterState) (env : RouterEnv) :
    (router_iteration origin st env).2.tries_until_return_to_sender_allowed =
      if (router_iteration origin st env).1.decrements then
        st.tries_until_return_to_sender_allowed - 1
      else st.tries_until_return_to_sender_allowed := by
  simp only [router_iteration]
  rcases hc : (if env.use_new_candidate then st.new_candidates.head? else st.score_keeper.best)
    with _ | q
  · simp [RouterOutcome.decrements]
  · by_cases h1 : env.channel_present
    · by_cases h2 : some q ≠ origin ∨ st.tries_until_return_to_sender_allowed = 0
      · by_cases h3 : env.send_ok
        · simp [h1, h2, h3, RouterOutcome.decrements]
        · simp [h1, h2, h3, RouterOutcome.decrements]
      · simp [h1, h2, RouterOutcome.decrements]
    · simp [h1, RouterOutcome.decrements]

theorem router_iteration_sent (origin : Option Nat) (st : RouterState) (env : RouterEnv)
    (q : Nat) (h : (router_iteration origin st env).1 = RouterOutcome.sent q) :
    some q ≠ origin ∨ st.tries_until_return_to_sender_allowed = 0 := by
  simp only [router_iteration] at h
  rcases hc : (if env.use_new_candidate then st.new_candidates.head? else st.score_keeper.best)
    with _ | r
  · rw [hc] at h
    simp at h
  · rw [hc] at h
    by_cases h1 : env.channel_present
    · by_cases h2 : some r ≠ origin ∨ st.tries_until_return_to_sender_allowed = 0
      · by_cases h3 : env.send_ok
        · simp [h1, h2, h3] at h
          exact h ▸ h2
        · simp [h1, h2, h3] at h
      · simp [h1, h2] at h
    · simp [h1] at h

/-- **C8 counterexample.** The router can send a packet back to its origin
after five iterations in which the loopback rule never fired: with no
scored peers and an empty new-candidate queue, five iterations find no
candidate at all (each decrementing the counter), the origin peer shows up
as a new candidate during the fifth wait, and the sixth iteration sends to
it — no selection was ever "refused by the loopback rule". -/
theorem c8_counterexample_sent_to_origin_without_refusals :
    router_run (some 7) routerStateFresh routerEnvsStarved =
      [RouterOutcome.noCandidate, RouterOutcome.noCandidate, RouterOutcome.noCandidate,
       RouterOutcome.noCandidate, RouterOutcome.noCandidate, RouterOutcome.sent 7] ∧
    ∀ q, RouterOutcome.refusedLoopback q ∉
      router_run (some 7) routerStateFresh routerEnvsStarved := by
  refine ⟨rfl, fun q hmem => ?_⟩
  rw [show router_run (some 7) routerStateFresh routerEnvsStarved =
      [RouterOutcome.noCandidate, RouterOutcome.noCandidate, RouterOutcome.noCandidate,
       RouterOutcome.noCandidate, RouterOutcome.noCandidate, RouterOutcome.sent 7]
    from rfl] at hmem
  simp at hmem

/-- **C8 (amended).** The router never sends a packet to its origin during
the first five iterations; it may send to the origin only after at least
five iterations that failed to route it — for any reason (no candidate, no
write channel for the candidate, or a loopback refusal), not necessarily
refusals by the loopback rule; send-error iterations do not count. -/
theorem c8_amended_origin_needs_five_failures (origin : Option Nat) (p : Nat)
    (hp : origin = some p) :
    ∀ (envs : List RouterEnv) (st : RouterState) (i : Nat),
      (router_run origin st envs).get? i = some (RouterOutcome.sent p) →
      st.tries_until_return_to_sender_allowed ≤
        ((router_run origin st envs).take i).countP (fun o => o.decrements) ∧
      (st.tries_until_return_to_sender_allowed = 5 → 5 ≤ i) := by
  have key : ∀ (envs : List RouterEnv) (st : RouterState) (i : Nat),
      (router_run origin st envs).get? i = some (RouterOutcome.sent p) →
      st.tries_until_return_to_sender_allowed ≤
        ((router_run origin st envs).take i).countP (fun o => o.decrements) := by
    intro envs
    induction envs with
    | nil =>
        intro st i h
        simp [router_run] at h
    | cons env rest ih =>
        intro st i h
        rcases hit : router_iteration origin st env with ⟨o, st2⟩
        have htries := router_iteration_tries origin st env
        rw [hit] at htries
        cases o with
        | sent q =>
            have hrun : router_run origin st (env :: rest) = [RouterOutcome.sent q] := by
              unfold router_run
              rw [hit]
            rw [hrun] at h ⊢
            have hq : q = p := by
              rcases i with _ | i
              · simpa using h
              · simp at h
            subst hq
            rcases router_iteration_sent origin st env q (by rw [hit]) with hno | h0
            · rw [hp] at hno
              exact absurd rfl hno
            · rw [h0]
              exact Nat.zero_le _
        | sendFailed q =>
            have hrun : router_run origin st (env :: rest) =
                RouterOutcome.sendFailed q :: router_run origin st2 rest := by
              conv_lhs => unfold router_run
              rw [hit]
            rw [hrun] at h ⊢
            rcases i with _ | i
            · simp at h
            · simp only [List.get?_cons_succ] at h
              have hih := ih st2 i h
              have htries2 := htries
              rw [show (RouterOutcome.sendFailed q).decrements = false from rfl] at htries2
              rw [List.take_succ_cons, List.countP_cons]
              simp only [show (RouterOutcome.sendFailed q).decrements = false from rfl]
              simp only [Bool.false_eq_true, if_false, if_true] at htries2 ⊢
              omega
        | refusedLoopback q =>
            have hrun : router_run origin st (env :: rest) =
                RouterOutcome.refusedLoopback q :: router_run origin st2 rest := by
              conv_lhs => unfold router_run
              rw [hit]
            rw [hrun] at h ⊢
            rcases i with _ | i
            · simp at h
            · simp only [List.get?_cons_succ] at h
              have hih := ih st2 i h
              have htries2 := htries
              rw [show (RouterOutcome.refusedLoopback q).decrements = true from rfl] at htries2
              rw [List.take_succ_cons, List.countP_cons]
              simp only [show (RouterOutcome.refusedLoopback q).decrements = true from rfl]
              simp only [Bool.false_eq_true, if_false, if_true] at htries2 ⊢
              omega
        | noChannel q =>
            have hrun : router_run origin st (env :: rest) =
                RouterOutcome.noChannel q :: router_run origin st2 rest := by
              conv_lhs => unfold router_run
              rw [hit]
            rw [hrun] at h ⊢
            rcases i with _ | i
            · simp at h
            · simp only [List.get?_cons_succ] at h
              have hih := ih st2 i h
              have htries2 := htries
              rw [show (RouterOutcome.noChannel q).decrements = true from rfl] at htries2
              rw [List.take_succ_cons, List.countP_cons]
              simp only [show (RouterOutcome.noChannel q).decrements = true from rfl]
              simp only [Bool.false_eq_true, if_false, if_true] at htries2 ⊢
              omega
        | noCandidate =>
            have hrun : router_run origin st (env :: rest) =
                RouterOutcome.noCandidate :: router_run origin st2 rest := by
              conv_lhs => unfold router_run
              rw [hit]
            rw [hrun] at h ⊢
            rcases i with _ | i
            · simp at h
            · simp only [List.get?_cons_succ] at h
              have hih := ih st2 i h
              have htries2 := htries
              rw [show (RouterOutcome.noCandidate).decrements = true from rfl] at htries2
              rw [List.take_succ_cons, List.countP_cons]
              simp only [show (RouterOutcome.noCandidate).decrements = true from rfl]
              simp only [Bool.false_eq_true, if_false, if_true] at htries2 ⊢
              omega
  intro envs st i h
  refine ⟨key envs st i h, fun h5 => ?_⟩
  have h1 := key envs st i h
  rw [h5] at h1
  calc (5 : Nat) ≤ _ := h1
    _ ≤ ((router_run origin st envs).take i).length := List.countP_le_length _
    _ ≤ i := by
        rw [List.length_take]
        omega

/-- **C8 witness**: the amended bound evaluated on the starved-then-notified
environment trace, where the origin send happens at iteration index 5. -/
theorem c8_amended_origin_needs_five_failures_witness :
    ((some 7 : Option Nat) = some 7 ∧
      (router_run (some 7) routerStateFresh routerEnvsStarved).get? 5 =
        some (RouterOutcome.sent 7)) ∧
    (routerStateFresh.tries_until_return_to_sender_allowed ≤
      ((router_run (some 7) routerStateFresh routerEnvsStarved).take 5).countP
        (fun o => o.decrements) ∧
    (routerStateFresh.tries_until_return_to_sender_allowed = 5 → 5 ≤ 5)) :=
  ⟨⟨rfl, rfl⟩,
   c8_amended_origin_needs_five_failures (some 7) 7 rfl routerEnvsStarved
     routerStateFresh 5 rfl⟩
